import Mathlib

/-!
# Circulation engine of `librarian-pro`, shallowly embedded

This file embeds the database stored procedures of the library-management
application (`checkout_book`, `return_book`, `calculate_fine`,
`mark_fine_paid`, `renew_book`, `member_checkout_book`,
`calculate_member_fine`, `generate_member_id`) as pure Lean functions over an
explicit database state, and proves the circulation-engine properties about
them.

Modelling conventions:
* Timestamps (`TIMESTAMP WITH TIME ZONE`) are integers counting seconds;
  `NOW()` becomes an explicit `now : Int` argument.
* `EXTRACT(DAY FROM (a - b))` on a timestamp difference is the day field of
  the PostgreSQL interval, i.e. the second count divided by 86400 truncating
  towards zero (`Int.tdiv`).
* UUID keys become `Nat` keys; `gen_random_uuid()` becomes a fresh-id counter
  carried in the state.
* `NUMERIC(10,2)` fine amounts are integers (every value the engine writes is
  a multiple of 200).
* A SQL `SELECT ... WHERE id = k` on a primary-key column is `findBy`; a SQL
  `UPDATE ... WHERE id = k` is `updateBy` (the updated expression is
  evaluated row-wise on the old row, as in SQL).
* Raised exceptions become `Except.error` with the exception's message; at
  the statement-sequence level an error aborts the whole procedure with the
  state unchanged (PostgreSQL rolls the function's effects back), which the
  `step` semantics makes explicit.
-/

namespace Librarian

/-- Seconds per day, for timestamp arithmetic. -/
def secondsPerDay : Int := 86400

/-- `EXTRACT(DAY FROM i)::integer` for an interval `i` obtained by
subtracting two timestamps: PostgreSQL splits the difference into whole
24-hour days plus a residual time; the day field truncates towards zero. -/
def extractDay (d : Int) : Int := d.tdiv secondsPerDay

/-- `CREATE TYPE book_status AS ENUM ('available', 'borrowed', 'damaged', 'lost')` -/
inductive BookStatus where
  | available
  | borrowed
  | damaged
  | lost
  deriving DecidableEq, Repr

/-- `CREATE TYPE transaction_status AS ENUM ('borrowed', 'returned', 'overdue')` -/
inductive TransactionStatus where
  | borrowed
  | returned
  | overdue
  deriving DecidableEq, Repr

/-- A row of `public.books` (the columns the engine reads or writes;
descriptive columns such as title and author are never touched by the
stored procedures). -/
structure Book where
  id : Nat
  total_copies : Int
  available_copies : Int
  status : BookStatus
  deriving DecidableEq, Repr

/-- A row of `public.transactions` (staff-initiated circulation). -/
structure Txn where
  id : Nat
  member_id : Nat
  book_id : Nat
  checkout_date : Int
  due_date : Int
  return_date : Option Int
  status : TransactionStatus
  fine_amount : Int
  fine_paid : Bool
  deriving DecidableEq, Repr

/-- A row of `public.member_transactions` (self-service circulation,
keyed by the authenticated user instead of a staff-managed member row). -/
structure MemberTxn where
  id : Nat
  user_id : Nat
  book_id : Nat
  checkout_date : Int
  due_date : Int
  return_date : Option Int
  status : TransactionStatus
  fine_amount : Int
  fine_paid : Bool
  deriving DecidableEq, Repr

/-- The database state the circulation engine touches.  `nextTxId` and
`nextMTxId` model `gen_random_uuid()` freshness for the two transaction
tables. -/
structure DB where
  books : List Book
  transactions : List Txn
  member_transactions : List MemberTxn
  nextTxId : Nat
  nextMTxId : Nat
  deriving DecidableEq, Repr

/-- `SELECT * FROM t WHERE key = k` on a primary-key column: the first (and,
for well-formed states, only) matching row. -/
def findBy {α : Type} (key : α → Nat) : List α → Nat → Option α
  | [], _ => none
  | x :: xs, k => if key x = k then some x else findBy key xs k

/-- `UPDATE t SET ... WHERE key = k`: rewrite every matching row with `f`
(the SET expressions read the old row, as in SQL). -/
def updateBy {α : Type} (key : α → Nat) (f : α → α) : List α → Nat → List α
  | [], _ => []
  | x :: xs, k => (if key x = k then f x else x) :: updateBy key f xs k

/-- `public.checkout_book(p_member_id, p_book_id, p_due_days)`:
admission-checked checkout.  Looks the book up, rejects a missing book or an
exhausted copy count, inserts a `borrowed` transaction due `p_due_days` days
from now, decrements `available_copies`, and flips the book's status to
`borrowed` exactly when the decrement reaches 0. -/
def checkout_book (st : DB) (p_member_id p_book_id : Nat) (p_due_days now : Int) :
    Except String (DB × Nat) :=
  match findBy Book.id st.books p_book_id with
  | none => .error "Book not found"
  | some b =>
    if b.available_copies ≤ 0 then .error "No available copies of this book"
    else
      let v_transaction_id := st.nextTxId
      let tx : Txn :=
        { id := v_transaction_id, member_id := p_member_id, book_id := p_book_id,
          checkout_date := now, due_date := now + p_due_days * secondsPerDay,
          return_date := none, status := .borrowed, fine_amount := 0, fine_paid := false }
      .ok ({ st with
              books := updateBy Book.id (fun bk =>
                { bk with
                    available_copies := bk.available_copies - 1,
                    status := if bk.available_copies - 1 = 0 then .borrowed else bk.status })
                st.books p_book_id,
              transactions := st.transactions ++ [tx],
              nextTxId := v_transaction_id + 1 },
            v_transaction_id)

/-- The `IF v_return_date IS NOT NULL / ELSIF status IN (borrowed, overdue) /
ELSE 0` chain of `calculate_fine` and `calculate_member_fine`. -/
def overdue_days_calc (due_date : Int) (return_date : Option Int)
    (status : TransactionStatus) (now : Int) : Int :=
  match return_date with
  | some rd => max 0 (extractDay (rd - due_date))
  | none =>
    if status = .borrowed ∨ status = .overdue then max 0 (extractDay (now - due_date))
    else 0

/-- `public.calculate_fine(p_transaction_id)`: recomputes the overdue fine at
₦200 per day, stores it in `fine_amount` (an overwrite, not an increment),
and returns it; a missing transaction yields 0 with no write. -/
def calculate_fine (st : DB) (p_transaction_id : Nat) (now : Int) : DB × Int :=
  match findBy Txn.id st.transactions p_transaction_id with
  | none => (st, 0)
  | some t =>
    let v_fine_amount := overdue_days_calc t.due_date t.return_date t.status now * 200
    ({ st with
        transactions := updateBy Txn.id (fun tx => { tx with fine_amount := v_fine_amount })
          st.transactions p_transaction_id },
      v_fine_amount)

/-- `public.mark_fine_paid(p_transaction_id)`: unconditionally sets
`fine_paid = true` on the matching row (the `AFTER UPDATE` trigger does not
fire its fine recalculation here because `return_date` is unchanged). -/
def mark_fine_paid (st : DB) (p_transaction_id : Nat) : DB :=
  { st with
      transactions := updateBy Txn.id (fun tx => { tx with fine_paid := true })
        st.transactions p_transaction_id }

/-- `public.return_book(p_transaction_id)`: rejects a missing or already
returned transaction; otherwise stamps `return_date = now` and
`status = returned`, lets the `trigger_auto_calculate_fine` trigger recompute
the fine (it fires because `return_date` transitioned from NULL), and
releases one copy back to the book, marking it `available` whenever the
incremented count is positive. -/
def return_book (st : DB) (p_transaction_id : Nat) (now : Int) : Except String DB :=
  match findBy Txn.id st.transactions p_transaction_id with
  | none => .error "Transaction not found"
  | some t =>
    if t.status = .returned then .error "Book already returned"
    else
      let st1 : DB :=
        { st with
            transactions := updateBy Txn.id
              (fun tx => { tx with return_date := some now, status := .returned })
              st.transactions p_transaction_id }
      -- AFTER UPDATE trigger: fires when OLD.return_date IS NULL AND NEW.return_date IS NOT NULL
      let st2 : DB := if t.return_date = none then (calculate_fine st1 p_transaction_id now).1 else st1
      .ok { st2 with
              books := updateBy Book.id (fun bk =>
                { bk with
                    available_copies := bk.available_copies + 1,
                    status := if bk.available_copies + 1 > 0 then .available else bk.status })
                st2.books t.book_id }

/-- The record `renew_book` returns (`success`, `message`, `new_due_date`). -/
structure RenewResult where
  success : Bool
  message : String
  new_due_date : Option Int
  deriving DecidableEq, Repr

/-- `public.renew_book(p_transaction_id, p_extend_days)`: refuses a missing
transaction, a transaction that is not currently borrowed/overdue, and a
member holding any transaction with `fine_amount > 0 AND fine_paid = false`;
otherwise extends `due_date` by `p_extend_days` days and resets the status
to `borrowed`. -/
def renew_book (st : DB) (p_transaction_id : Nat) (p_extend_days : Int) : DB × RenewResult :=
  match findBy Txn.id st.transactions p_transaction_id with
  | none => (st, ⟨false, "Transaction not found", none⟩)
  | some t =>
    if t.status ≠ .borrowed ∧ t.status ≠ .overdue then
      (st, ⟨false, "Book must be currently borrowed to renew", none⟩)
    else
      let v_unpaid_fines_count := (st.transactions.filter (fun tx =>
        decide (tx.member_id = t.member_id ∧ 0 < tx.fine_amount ∧ tx.fine_paid = false))).length
      if 0 < v_unpaid_fines_count then
        (st, ⟨false, "Member has unpaid fines. Please clear fines before renewing.", none⟩)
      else
        ({ st with
            transactions := updateBy Txn.id
              (fun tx => { tx with
                  due_date := tx.due_date + p_extend_days * secondsPerDay,
                  status := .borrowed })
              st.transactions p_transaction_id },
          ⟨true, "Book renewed successfully", some (t.due_date + p_extend_days * secondsPerDay)⟩)

/-- `public.member_checkout_book(p_book_id, p_due_days)`: the self-service
checkout.  `auth.uid()` is the explicit `auth_uid` argument; an unresolved
identity is rejected before the book is even looked up, then the body
mirrors `checkout_book` against `member_transactions`. -/
def member_checkout_book (st : DB) (auth_uid : Option Nat) (p_book_id : Nat)
    (p_due_days now : Int) : Except String (DB × Nat) :=
  match auth_uid with
  | none => .error "User not authenticated"
  | some v_user_id =>
    match findBy Book.id st.books p_book_id with
    | none => .error "Book not found"
    | some b =>
      if b.available_copies ≤ 0 then .error "No available copies of this book"
      else
        let v_transaction_id := st.nextMTxId
        let tx : MemberTxn :=
          { id := v_transaction_id, user_id := v_user_id, book_id := p_book_id,
            checkout_date := now, due_date := now + p_due_days * secondsPerDay,
            return_date := none, status := .borrowed, fine_amount := 0, fine_paid := false }
        .ok ({ st with
                books := updateBy Book.id (fun bk =>
                  { bk with
                      available_copies := bk.available_copies - 1,
                      status := if bk.available_copies - 1 = 0 then .borrowed else bk.status })
                  st.books p_book_id,
                member_transactions := st.member_transactions ++ [tx],
                nextMTxId := v_transaction_id + 1 },
              v_transaction_id)

/-- `public.calculate_member_fine(p_transaction_id)`: `calculate_fine`
verbatim, against `member_transactions`. -/
def calculate_member_fine (st : DB) (p_transaction_id : Nat) (now : Int) : DB × Int :=
  match findBy MemberTxn.id st.member_transactions p_transaction_id with
  | none => (st, 0)
  | some t =>
    let v_fine_amount := overdue_days_calc t.due_date t.return_date t.status now * 200
    ({ st with
        member_transactions := updateBy MemberTxn.id
          (fun tx => { tx with fine_amount := v_fine_amount })
          st.member_transactions p_transaction_id },
      v_fine_amount)

/-- One invocation of a circulation-engine procedure, with its `NOW()`
instant where the procedure reads the clock. -/
inductive Op where
  | checkout (p_member_id p_book_id : Nat) (p_due_days now : Int)
  | memberCheckout (auth_uid : Option Nat) (p_book_id : Nat) (p_due_days now : Int)
  | returnBook (p_transaction_id : Nat) (now : Int)
  | calcFine (p_transaction_id : Nat) (now : Int)
  | calcMemberFine (p_transaction_id : Nat) (now : Int)
  | markFinePaid (p_transaction_id : Nat)
  | renew (p_transaction_id : Nat) (p_extend_days : Int)

/-- The state transition of one engine call: a raised exception rolls the
whole call back, so the failing cases leave the state untouched. -/
def step (st : DB) : Op → DB
  | .checkout m b d n =>
    match checkout_book st m b d n with
    | .ok (st', _) => st'
    | .error _ => st
  | .memberCheckout u b d n =>
    match member_checkout_book st u b d n with
    | .ok (st', _) => st'
    | .error _ => st
  | .returnBook t n =>
    match return_book st t n with
    | .ok st' => st'
    | .error _ => st
  | .calcFine t n => (calculate_fine st t n).1
  | .calcMemberFine t n => (calculate_member_fine st t n).1
  | .markFinePaid t => mark_fine_paid st t
  | .renew t d => (renew_book st t d).1

/-- The empty store. -/
def emptyDB : DB := ⟨[], [], [], 0, 0⟩

/-- The state after running a sequence of engine calls from the empty store. -/
def run (ops : List Op) : DB := ops.foldl step emptyDB

/-- A row of `public.members`, restricted to the one column
`generate_member_id` inspects (`member_id TEXT NOT NULL UNIQUE`); the
function otherwise reads only `COUNT(*)`. -/
structure MemberRow where
  member_id : String
  deriving DecidableEq, Repr

/-- `LPAD(s, 4, '0')`: left-pad with zeros to length 4, truncating on the
right when the input is already longer. -/
def lpadChars (cs : List Char) : List Char :=
  if 4 ≤ cs.length then cs.take 4
  else List.replicate (4 - cs.length) '0' ++ cs

/-- The candidate id the loop body of `generate_member_id` builds:
`'LIB-' || EXTRACT(YEAR FROM NOW()) || '-' || LPAD((COUNT(*) + 1)::TEXT, 4, '0')`. -/
def candidate_member_id (members : List MemberRow) (year : Nat) : String :=
  "LIB-" ++ toString year ++ "-" ++ String.mk (lpadChars (Nat.repr (members.length + 1)).data)

/-- `SELECT EXISTS(SELECT 1 FROM public.members WHERE member_id = s)`. -/
def member_id_exists (members : List MemberRow) (s : String) : Bool :=
  members.any (fun m => m.member_id == s)

/-- `public.generate_member_id()`, fuel-indexed: each pass of the `LOOP`
recomputes the candidate from the (unchanged) table state, returns it when
no member already carries it, and otherwise loops.  `none` means the given
number of iterations did not exit the loop. -/
def generate_member_id (members : List MemberRow) (year : Nat) : Nat → Option String
  | 0 => none
  | fuel + 1 =>
    let new_id := candidate_member_id members year
    if member_id_exists members new_id then generate_member_id members year fuel
    else some new_id

/-- The collision-check loop of `generate_member_id` never exits on this
table state, however many iterations it is allowed. -/
def generate_member_id_diverges (members : List MemberRow) (year : Nat) : Prop :=
  ∀ fuel, generate_member_id members year fuel = none

/-! ## Spec-side definitions

These two definitions follow the wording of the specification (not the SQL);
the claims compare the embedded procedures against them. -/

/-- Modelled from the spec:
`overdue_days = max(0, days(effective_end − due_date))`, where
`effective_end = return_date` if set, else `now` if status is
borrowed/overdue, else the calculation yields 0. -/
def spec_overdue_days (due_date : Int) (return_date : Option Int)
    (status : TransactionStatus) (now : Int) : Int :=
  match return_date with
  | some rd => max 0 (extractDay (rd - due_date))
  | none =>
    if status = .borrowed ∨ status = .overdue then max 0 (extractDay (now - due_date))
    else 0

/-- The invariant of claim C8: a set `return_date` forces status `returned`,
on both transaction tables. -/
def RetStatusInv (st : DB) : Prop :=
  (∀ t ∈ st.transactions, t.return_date ≠ none → t.status = .returned) ∧
  (∀ t ∈ st.member_transactions, t.return_date ≠ none → t.status = .returned)

/-- Well-formedness of the generated keys: transaction ids are pairwise
distinct and below the fresh-id counter (true of every reachable state;
it is what `gen_random_uuid()` freshness gives the real system). -/
def IdsOk (st : DB) : Prop :=
  (st.transactions.map Txn.id).Nodup ∧ (∀ t ∈ st.transactions, t.id < st.nextTxId) ∧
  (st.member_transactions.map MemberTxn.id).Nodup ∧
  (∀ t ∈ st.member_transactions, t.id < st.nextMTxId)

/-! ## Generic lemmas about `findBy` and `updateBy` -/

theorem findBy_some {α : Type} (key : α → Nat) :
    ∀ (l : List α) (k : Nat) (x : α), findBy key l k = some x → x ∈ l ∧ key x = k := by
  intro l k x h
  induction l with
  | nil => simp [findBy] at h
  | cons y ys ih =>
    by_cases hy : key y = k
    · simp [findBy, hy] at h
      subst h
      exact ⟨List.mem_cons_self _ _, hy⟩
    · simp [findBy, hy] at h
      obtain ⟨h1, h2⟩ := ih h
      exact ⟨List.mem_cons_of_mem _ h1, h2⟩

theorem findBy_updateBy_self {α : Type} (key : α → Nat) (f : α → α)
    (hf : ∀ x, key (f x) = key x) (l : List α) (k : Nat) :
    findBy key (updateBy key f l k) k = (findBy key l k).map f := by
  induction l with
  | nil => simp [findBy, updateBy]
  | cons y ys ih =>
    by_cases hy : key y = k
    · simp [findBy, updateBy, hy, hf]
    · simp [findBy, updateBy, hy, ih]

theorem findBy_updateBy_ne {α : Type} (key : α → Nat) (f : α → α)
    (hf : ∀ x, key (f x) = key x) (l : List α) (k k' : Nat) (h : k' ≠ k) :
    findBy key (updateBy key f l k) k' = findBy key l k' := by
  induction l with
  | nil => simp [updateBy]
  | cons y ys ih =>
    by_cases hy : key y = k
    · have h1 : key (f y) ≠ k' := by rw [hf, hy]; exact fun hc => h hc.symm
      have h2 : key y ≠ k' := by rw [hy]; exact fun hc => h hc.symm
      rw [updateBy, if_pos hy, findBy, if_neg h1, findBy, if_neg h2, ih]
    · by_cases hy' : key y = k'
      · rw [updateBy, if_neg hy, findBy, if_pos hy', findBy, if_pos hy']
      · rw [updateBy, if_neg hy, findBy, if_neg hy', findBy, if_neg hy', ih]

theorem map_updateBy {α β : Type} (key : α → Nat) (f : α → α) (g : α → β)
    (hg : ∀ x, g (f x) = g x) (l : List α) (k : Nat) :
    (updateBy key f l k).map g = l.map g := by
  induction l with
  | nil => simp [updateBy]
  | cons y ys ih =>
    by_cases hy : key y = k
    · simp [updateBy, hy, hg, ih]
    · simp [updateBy, hy, ih]

theorem updateBy_updateBy {α : Type} (key : α → Nat) (f g : α → α)
    (hf : ∀ x, key (f x) = key x) (l : List α) (k : Nat) :
    updateBy key g (updateBy key f l k) k = updateBy key (fun x => g (f x)) l k := by
  induction l with
  | nil => simp [updateBy]
  | cons y ys ih =>
    by_cases hy : key y = k
    · simp [updateBy, hy, hf, ih]
    · simp [updateBy, hy, ih]

theorem forall_mem_updateBy {α : Type} {P : α → Prop} (key : α → Nat) (f : α → α)
    (l : List α) (k : Nat)
    (h1 : ∀ y ∈ l, key y = k → P (f y)) (h2 : ∀ y ∈ l, key y ≠ k → P y) :
    ∀ x ∈ updateBy key f l k, P x := by
  induction l with
  | nil => simp [updateBy]
  | cons y ys ih =>
    intro x hx
    by_cases hy : key y = k
    · simp only [updateBy, if_pos hy] at hx
      rcases List.mem_cons.mp hx with hx | hx
      · exact hx ▸ h1 y (List.mem_cons_self _ _) hy
      · exact ih (fun z hz => h1 z (List.mem_cons_of_mem _ hz))
          (fun z hz => h2 z (List.mem_cons_of_mem _ hz)) x hx
    · simp only [updateBy, if_neg hy] at hx
      rcases List.mem_cons.mp hx with hx | hx
      · exact hx ▸ h2 y (List.mem_cons_self _ _) hy
      · exact ih (fun z hz => h1 z (List.mem_cons_of_mem _ hz))
          (fun z hz => h2 z (List.mem_cons_of_mem _ hz)) x hx

theorem findBy_eq_some_of_mem {α : Type} (key : α → Nat) (l : List α) (k : Nat)
    (hnd : (l.map key).Nodup) (x : α) (hx : x ∈ l) (hk : key x = k) :
    findBy key l k = some x := by
  induction l with
  | nil => simp at hx
  | cons y ys ih =>
    rcases List.mem_cons.mp hx with hx | hx
    · subst hx
      simp [findBy, hk]
    · by_cases hy : key y = k
      · exfalso
        simp only [List.map_cons, List.nodup_cons] at hnd
        exact hnd.1 (hy ▸ hk ▸ List.mem_map_of_mem key hx)
      · simp only [List.map_cons, List.nodup_cons] at hnd
        simp [findBy, hy, ih hnd.2 hx]

/-! ## Arithmetic lemmas about the day extraction -/

theorem max_extractDay_eq (x : Int) :
    max 0 (extractDay x) = ((x.toNat / 86400 : Nat) : Int) := by
  cases x with
  | ofNat n =>
    have h1 : extractDay (Int.ofNat n) = Int.ofNat (n / 86400) := rfl
    have h2 : (Int.ofNat n).toNat = n := rfl
    rw [h1, h2, Int.ofNat_eq_natCast]
    omega
  | negSucc n =>
    have h1 : extractDay (Int.negSucc n) = -Int.ofNat ((n + 1) / 86400) := rfl
    have h2 : (Int.negSucc n).toNat = 0 := rfl
    rw [h1, h2, Int.ofNat_eq_natCast]
    omega

theorem overdue_days_unresolved_mono (due : Int) (status : TransactionStatus)
    (hs : status = .borrowed ∨ status = .overdue) (n₁ n₂ : Int) (h : n₁ ≤ n₂) :
    overdue_days_calc due none status n₁ ≤ overdue_days_calc due none status n₂ := by
  simp only [overdue_days_calc, if_pos hs, max_extractDay_eq]
  have h1 : (n₁ - due).toNat ≤ (n₂ - due).toNat := Int.toNat_le_toNat (by omega)
  exact_mod_cast Nat.div_le_div_right h1

/-! ## Shape lemmas for the procedures -/

theorem calculate_fine_found (st : DB) (tid : Nat) (now : Int) (t : Txn)
    (h : findBy Txn.id st.transactions tid = some t) :
    calculate_fine st tid now =
      ({ st with
          transactions := updateBy Txn.id
            (fun tx =>
              { tx with
                  fine_amount := overdue_days_calc t.due_date t.return_date t.status now * 200 })
            st.transactions tid },
        overdue_days_calc t.due_date t.return_date t.status now * 200) := by
  rw [calculate_fine, h]

theorem calculate_member_fine_found (st : DB) (tid : Nat) (now : Int) (t : MemberTxn)
    (h : findBy MemberTxn.id st.member_transactions tid = some t) :
    calculate_member_fine st tid now =
      ({ st with
          member_transactions := updateBy MemberTxn.id
            (fun tx =>
              { tx with
                  fine_amount := overdue_days_calc t.due_date t.return_date t.status now * 200 })
            st.member_transactions tid },
        overdue_days_calc t.due_date t.return_date t.status now * 200) := by
  rw [calculate_member_fine, h]

theorem return_book_found (st : DB) (tid : Nat) (now : Int) (t : Txn)
    (ht : findBy Txn.id st.transactions tid = some t)
    (hst : t.status ≠ .returned) :
    return_book st tid now = .ok
      { st with
          transactions := updateBy Txn.id
            (fun tx =>
              { tx with
                  return_date := some now,
                  status := .returned,
                  fine_amount := if t.return_date = none
                    then max 0 (extractDay (now - t.due_date)) * 200 else tx.fine_amount })
            st.transactions tid,
          books := updateBy Book.id
            (fun bk =>
              { bk with
                  available_copies := bk.available_copies + 1,
                  status := if bk.available_copies + 1 > 0 then .available else bk.status })
            st.books t.book_id } := by
  have hf : ∀ x : Txn,
      Txn.id { x with return_date := some now, status := TransactionStatus.returned } = Txn.id x :=
    fun _ => rfl
  rcases hrd : t.return_date with _ | rd
  · have h1 : findBy Txn.id
        (updateBy Txn.id (fun tx => { tx with return_date := some now, status := .returned })
          st.transactions tid) tid
        = some { t with return_date := some now, status := .returned } := by
      rw [findBy_updateBy_self _ _ hf, ht]
      rfl
    rw [return_book, ht]
    dsimp only
    rw [if_neg hst, hrd]
    simp only [if_pos rfl]
    rw [calculate_fine_found _ _ _ _ h1]
    dsimp only
    rw [updateBy_updateBy _ _ _ hf]
    rfl
  · rw [return_book, ht]
    dsimp only
    rw [if_neg hst, hrd]
    simp only [reduceCtorEq, if_false]

theorem checkout_book_found (st : DB) (mid bid : Nat) (d now : Int) (b : Book)
    (hb : findBy Book.id st.books bid = some b)
    (havail : 0 < b.available_copies) :
    checkout_book st mid bid d now = .ok
      ({ st with
          books := updateBy Book.id
            (fun bk =>
              { bk with
                  available_copies := bk.available_copies - 1,
                  status := if bk.available_copies - 1 = 0 then .borrowed else bk.status })
            st.books bid,
          transactions := st.transactions
            ++ [⟨st.nextTxId, mid, bid, now, now + d * secondsPerDay, none, .borrowed, 0, false⟩],
          nextTxId := st.nextTxId + 1 },
        st.nextTxId) := by
  rw [checkout_book, hb]
  dsimp only
  rw [if_neg (not_le.mpr havail)]

theorem member_checkout_book_found (st : DB) (uid bid : Nat) (d now : Int) (b : Book)
    (hb : findBy Book.id st.books bid = some b)
    (havail : 0 < b.available_copies) :
    member_checkout_book st (some uid) bid d now = .ok
      ({ st with
          books := updateBy Book.id
            (fun bk =>
              { bk with
                  available_copies := bk.available_copies - 1,
                  status := if bk.available_copies - 1 = 0 then .borrowed else bk.status })
            st.books bid,
          member_transactions := st.member_transactions
            ++ [⟨st.nextMTxId, uid, bid, now, now + d * secondsPerDay, none, .borrowed, 0, false⟩],
          nextMTxId := st.nextMTxId + 1 },
        st.nextMTxId) := by
  rw [member_checkout_book]
  dsimp only
  rw [hb]
  dsimp only
  rw [if_neg (not_le.mpr havail)]

theorem renew_book_ok (st : DB) (tid : Nat) (d : Int) (t : Txn)
    (ht : findBy Txn.id st.transactions tid = some t)
    (hstat : t.status = .borrowed ∨ t.status = .overdue)
    (hnof : ∀ tx ∈ st.transactions,
      ¬(tx.member_id = t.member_id ∧ 0 < tx.fine_amount ∧ tx.fine_paid = false)) :
    renew_book st tid d =
      ({ st with
          transactions := updateBy Txn.id
            (fun tx =>
              { tx with
                  due_date := tx.due_date + d * secondsPerDay,
                  status := .borrowed })
            st.transactions tid },
        ⟨true, "Book renewed successfully", some (t.due_date + d * secondsPerDay)⟩) := by
  have hguard : ¬(t.status ≠ .borrowed ∧ t.status ≠ .overdue) := by
    rcases hstat with h | h <;> simp [h]
  have hfilter : st.transactions.filter (fun tx =>
      decide (tx.member_id = t.member_id ∧ 0 < tx.fine_amount ∧ tx.fine_paid = false)) = [] :=
    List.filter_eq_nil_iff.mpr (fun a ha => by simpa using hnof a ha)
  rw [renew_book, ht]
  dsimp only
  rw [if_neg hguard, hfilter]
  simp

theorem renew_book_unpaid (st : DB) (tid : Nat) (d : Int) (t : Txn)
    (ht : findBy Txn.id st.transactions tid = some t)
    (hstat : t.status = .borrowed ∨ t.status = .overdue)
    (hex : ∃ tx ∈ st.transactions,
      tx.member_id = t.member_id ∧ 0 < tx.fine_amount ∧ tx.fine_paid = false) :
    renew_book st tid d =
      (st, ⟨false, "Member has unpaid fines. Please clear fines before renewing.", none⟩) := by
  have hguard : ¬(t.status ≠ .borrowed ∧ t.status ≠ .overdue) := by
    rcases hstat with h | h <;> simp [h]
  obtain ⟨tx, htx, hprop⟩ := hex
  have hmem : tx ∈ st.transactions.filter (fun tx =>
      decide (tx.member_id = t.member_id ∧ 0 < tx.fine_amount ∧ tx.fine_paid = false)) :=
    List.mem_filter.mpr ⟨htx, by simpa using hprop⟩
  have hpos := List.length_pos_of_mem hmem
  rw [renew_book, ht]
  dsimp only
  rw [if_neg hguard, if_pos hpos]

/-! ## Preservation lemmas for the reachability invariant (claim C8) -/

theorem txns_inv_updateBy (l : List Txn) (k : Nat) (f : Txn → Txn) (nt : Nat)
    (hid : ∀ x, (f x).id = x.id)
    (hnd : (l.map Txn.id).Nodup) (hbound : ∀ t ∈ l, t.id < nt)
    (hret : ∀ t ∈ l, t.return_date ≠ none → t.status = .returned)
    (hP : ∀ y ∈ l, y.id = k → ((f y).return_date ≠ none → (f y).status = .returned)) :
    ((updateBy Txn.id f l k).map Txn.id).Nodup
      ∧ (∀ t ∈ updateBy Txn.id f l k, t.id < nt)
      ∧ (∀ t ∈ updateBy Txn.id f l k, t.return_date ≠ none → t.status = .returned) := by
  refine ⟨by rw [map_updateBy Txn.id f Txn.id hid]; exact hnd, ?_, ?_⟩
  · exact forall_mem_updateBy Txn.id f l k
      (fun y hy _ => by rw [hid]; exact hbound y hy) (fun y hy _ => hbound y hy)
  · exact forall_mem_updateBy Txn.id f l k hP (fun y hy _ => hret y hy)

theorem txns_inv_append (l : List Txn) (tx : Txn) (nt : Nat)
    (hnd : (l.map Txn.id).Nodup) (hbound : ∀ t ∈ l, t.id < nt)
    (hret : ∀ t ∈ l, t.return_date ≠ none → t.status = .returned)
    (hnew : tx.id = nt) (hretnew : tx.return_date = none) :
    (((l ++ [tx]).map Txn.id).Nodup)
      ∧ (∀ t ∈ l ++ [tx], t.id < nt + 1)
      ∧ (∀ t ∈ l ++ [tx], t.return_date ≠ none → t.status = .returned) := by
  refine ⟨?_, ?_, ?_⟩
  · rw [List.map_append]
    refine List.Nodup.append hnd (List.nodup_singleton _) ?_
    intro a ha hb
    obtain ⟨t', ht', rfl⟩ := List.mem_map.mp ha
    simp only [List.map_cons, List.map_nil, List.mem_singleton] at hb
    have := hbound t' ht'
    omega
  · intro x hx
    rcases List.mem_append.mp hx with hx | hx
    · have := hbound x hx; omega
    · simp only [List.mem_singleton] at hx
      subst hx
      omega
  · intro x hx
    rcases List.mem_append.mp hx with hx | hx
    · exact hret x hx
    · simp only [List.mem_singleton] at hx
      subst hx
      intro hc
      exact absurd hretnew hc

theorem mtxns_inv_updateBy (l : List MemberTxn) (k : Nat) (f : MemberTxn → MemberTxn) (nt : Nat)
    (hid : ∀ x, (f x).id = x.id)
    (hnd : (l.map MemberTxn.id).Nodup) (hbound : ∀ t ∈ l, t.id < nt)
    (hret : ∀ t ∈ l, t.return_date ≠ none → t.status = .returned)
    (hP : ∀ y ∈ l, y.id = k → ((f y).return_date ≠ none → (f y).status = .returned)) :
    ((updateBy MemberTxn.id f l k).map MemberTxn.id).Nodup
      ∧ (∀ t ∈ updateBy MemberTxn.id f l k, t.id < nt)
      ∧ (∀ t ∈ updateBy MemberTxn.id f l k, t.return_date ≠ none → t.status = .returned) := by
  refine ⟨by rw [map_updateBy MemberTxn.id f MemberTxn.id hid]; exact hnd, ?_, ?_⟩
  · exact forall_mem_updateBy MemberTxn.id f l k
      (fun y hy _ => by rw [hid]; exact hbound y hy) (fun y hy _ => hbound y hy)
  · exact forall_mem_updateBy MemberTxn.id f l k hP (fun y hy _ => hret y hy)

theorem mtxns_inv_append (l : List MemberTxn) (tx : MemberTxn) (nt : Nat)
    (hnd : (l.map MemberTxn.id).Nodup) (hbound : ∀ t ∈ l, t.id < nt)
    (hret : ∀ t ∈ l, t.return_date ≠ none → t.status = .returned)
    (hnew : tx.id = nt) (hretnew : tx.return_date = none) :
    (((l ++ [tx]).map MemberTxn.id).Nodup)
      ∧ (∀ t ∈ l ++ [tx], t.id < nt + 1)
      ∧ (∀ t ∈ l ++ [tx], t.return_date ≠ none → t.status = .returned) := by
  refine ⟨?_, ?_, ?_⟩
  · rw [List.map_append]
    refine List.Nodup.append hnd (List.nodup_singleton _) ?_
    intro a ha hb
    obtain ⟨t', ht', rfl⟩ := List.mem_map.mp ha
    simp only [List.map_cons, List.map_nil, List.mem_singleton] at hb
    have := hbound t' ht'
    omega
  · intro x hx
    rcases List.mem_append.mp hx with hx | hx
    · have := hbound x hx; omega
    · simp only [List.mem_singleton] at hx
      subst hx
      omega
  · intro x hx
    rcases List.mem_append.mp hx with hx | hx
    · exact hret x hx
    · simp only [List.mem_singleton] at hx
      subst hx
      intro hc
      exact absurd hretnew hc

theorem step_preserves (st : DB) (op : Op)
    (h : IdsOk st ∧ RetStatusInv st) :
    IdsOk (step st op) ∧ RetStatusInv (step st op) := by
  obtain ⟨⟨hnd, hbound, hmnd, hmbound⟩, hret, hmret⟩ := h
  cases op with
  | checkout m b d n =>
    rw [step]
    cases hfb : findBy Book.id st.books b with
    | none =>
      rw [checkout_book, hfb]
      exact ⟨⟨hnd, hbound, hmnd, hmbound⟩, hret, hmret⟩
    | some bk =>
      by_cases ha : bk.available_copies ≤ 0
      · rw [checkout_book, hfb]
        dsimp only
        rw [if_pos ha]
        exact ⟨⟨hnd, hbound, hmnd, hmbound⟩, hret, hmret⟩
      · rw [checkout_book_found st m b d n bk hfb (not_le.mp ha)]
        dsimp only
        obtain ⟨h1, h2, h3⟩ := txns_inv_append st.transactions
          ⟨st.nextTxId, m, b, n, n + d * secondsPerDay, none, .borrowed, 0, false⟩ st.nextTxId
          hnd hbound hret rfl rfl
        exact ⟨⟨h1, h2, hmnd, hmbound⟩, h3, hmret⟩
  | memberCheckout u b d n =>
    rw [step]
    cases u with
    | none =>
      rw [member_checkout_book]
      exact ⟨⟨hnd, hbound, hmnd, hmbound⟩, hret, hmret⟩
    | some uid =>
      cases hfb : findBy Book.id st.books b with
      | none =>
        rw [member_checkout_book]
        dsimp only
        rw [hfb]
        exact ⟨⟨hnd, hbound, hmnd, hmbound⟩, hret, hmret⟩
      | some bk =>
        by_cases ha : bk.available_copies ≤ 0
        · rw [member_checkout_book]
          dsimp only
          rw [hfb]
          dsimp only
          rw [if_pos ha]
          exact ⟨⟨hnd, hbound, hmnd, hmbound⟩, hret, hmret⟩
        · rw [member_checkout_book_found st uid b d n bk hfb (not_le.mp ha)]
          dsimp only
          obtain ⟨h1, h2, h3⟩ := mtxns_inv_append st.member_transactions
            ⟨st.nextMTxId, uid, b, n, n + d * secondsPerDay, none, .borrowed, 0, false⟩ st.nextMTxId
            hmnd hmbound hmret rfl rfl
          exact ⟨⟨hnd, hbound, h1, h2⟩, hret, h3⟩
  | returnBook tr n =>
    rw [step]
    cases hfb : findBy Txn.id st.transactions tr with
    | none =>
      rw [return_book, hfb]
      exact ⟨⟨hnd, hbound, hmnd, hmbound⟩, hret, hmret⟩
    | some t =>
      by_cases hst : t.status = .returned
      · rw [return_book, hfb]
        dsimp only
        rw [if_pos hst]
        exact ⟨⟨hnd, hbound, hmnd, hmbound⟩, hret, hmret⟩
      · rw [return_book_found st tr n t hfb hst]
        dsimp only
        obtain ⟨h1, h2, h3⟩ := txns_inv_updateBy st.transactions tr
          (fun tx =>
            { tx with
                return_date := some n,
                status := .returned,
                fine_amount := if t.return_date = none
                  then max 0 (extractDay (n - t.due_date)) * 200 else tx.fine_amount })
          st.nextTxId (fun _ => rfl) hnd hbound hret (fun _ _ _ _ => rfl)
        exact ⟨⟨h1, h2, hmnd, hmbound⟩, h3, hmret⟩
  | calcFine tr n =>
    rw [step]
    cases hfb : findBy Txn.id st.transactions tr with
    | none =>
      rw [calculate_fine, hfb]
      exact ⟨⟨hnd, hbound, hmnd, hmbound⟩, hret, hmret⟩
    | some t =>
      rw [calculate_fine_found st tr n t hfb]
      dsimp only
      obtain ⟨h1, h2, h3⟩ := txns_inv_updateBy st.transactions tr
        (fun tx =>
          { tx with fine_amount := overdue_days_calc t.due_date t.return_date t.status n * 200 })
        st.nextTxId (fun _ => rfl) hnd hbound hret (fun y hy _ => hret y hy)
      exact ⟨⟨h1, h2, hmnd, hmbound⟩, h3, hmret⟩
  | calcMemberFine tr n =>
    rw [step]
    cases hfb : findBy MemberTxn.id st.member_transactions tr with
    | none =>
      rw [calculate_member_fine, hfb]
      exact ⟨⟨hnd, hbound, hmnd, hmbound⟩, hret, hmret⟩
    | some t =>
      rw [calculate_member_fine_found st tr n t hfb]
      dsimp only
      obtain ⟨h1, h2, h3⟩ := mtxns_inv_updateBy st.member_transactions tr
        (fun tx =>
          { tx with fine_amount := overdue_days_calc t.due_date t.return_date t.status n * 200 })
        st.nextMTxId (fun _ => rfl) hmnd hmbound hmret (fun y hy _ => hmret y hy)
      exact ⟨⟨hnd, hbound, h1, h2⟩, hret, h3⟩
  | markFinePaid tr =>
    rw [step, mark_fine_paid]
    obtain ⟨h1, h2, h3⟩ := txns_inv_updateBy st.transactions tr
      (fun tx => { tx with fine_paid := true })
      st.nextTxId (fun _ => rfl) hnd hbound hret (fun y hy _ => hret y hy)
    exact ⟨⟨h1, h2, hmnd, hmbound⟩, h3, hmret⟩
  | renew tr d =>
    rw [step]
    cases hfb : findBy Txn.id st.transactions tr with
    | none =>
      rw [renew_book, hfb]
      exact ⟨⟨hnd, hbound, hmnd, hmbound⟩, hret, hmret⟩
    | some t =>
      by_cases hg : t.status ≠ .borrowed ∧ t.status ≠ .overdue
      · rw [renew_book, hfb]
        dsimp only
        rw [if_pos hg]
        exact ⟨⟨hnd, hbound, hmnd, hmbound⟩, hret, hmret⟩
      · have hstat : t.status = .borrowed ∨ t.status = .overdue := by
          rcases not_and_or.mp hg with h' | h'
          · exact Or.inl (not_not.mp h')
          · exact Or.inr (not_not.mp h')
        by_cases hu : 0 < (st.transactions.filter (fun tx =>
            decide (tx.member_id = t.member_id ∧ 0 < tx.fine_amount ∧ tx.fine_paid = false))).length
        · rw [renew_book, hfb]
          dsimp only
          rw [if_neg hg, if_pos hu]
          exact ⟨⟨hnd, hbound, hmnd, hmbound⟩, hret, hmret⟩
        · rw [renew_book, hfb]
          dsimp only
          rw [if_neg hg, if_neg hu]
          dsimp only
          have hP : ∀ y ∈ st.transactions, y.id = tr →
              (y.return_date ≠ none → TransactionStatus.borrowed = TransactionStatus.returned) := by
            intro y hy hk hne
            have hy_eq : findBy Txn.id st.transactions tr = some y :=
              findBy_eq_some_of_mem Txn.id st.transactions tr hnd y hy hk
            rw [hfb] at hy_eq
            have hyt : y = t := (Option.some.inj hy_eq).symm
            subst hyt
            have hcontr : y.status = .returned := hret y hy hne
            rcases hstat with hs | hs <;> rw [hs] at hcontr <;> exact absurd hcontr (by simp)
          obtain ⟨h1, h2, h3⟩ := txns_inv_updateBy st.transactions tr
            (fun tx =>
              { tx with due_date := tx.due_date + d * secondsPerDay, status := .borrowed })
            st.nextTxId (fun _ => rfl) hnd hbound hret hP
          exact ⟨⟨h1, h2, hmnd, hmbound⟩, h3, hmret⟩

theorem inv_foldl (ops : List Op) :
    ∀ st : DB, IdsOk st ∧ RetStatusInv st →
      IdsOk (ops.foldl step st) ∧ RetStatusInv (ops.foldl step st) := by
  induction ops with
  | nil => intro st h; exact h
  | cons op rest ih =>
    intro st h
    rw [List.foldl_cons]
    exact ih (step st op) (step_preserves st op h)

theorem inv_empty : IdsOk emptyDB ∧ RetStatusInv emptyDB := by
  refine ⟨⟨?_, ?_, ?_, ?_⟩, ?_, ?_⟩ <;> simp [emptyDB, IdsOk, RetStatusInv]

/-- Erase the one column `calculate_fine` writes; used to state that it
writes nothing else. -/
def eraseFineAmount (t : Txn) : Txn := { t with fine_amount := 0 }

theorem lpadChars_length (cs : List Char) : (lpadChars cs).length = 4 := by
  by_cases h : 4 ≤ cs.length
  · simp [lpadChars, h]
  · simp only [lpadChars, if_neg h, List.length_append, List.length_replicate]
    omega

/-! ## The claims -/

/-- C1: for every existing transaction of the staff table, `calculate_fine`
returns `overdue_days × 200` with
`overdue_days = max(0, days(effective_end − due_date))`, `effective_end`
being the return date if set, else `now` while borrowed/overdue, else the
result is 0; the returned amount replaces the stored `fine_amount`; a call
with the due date 3 days past yields 600 and one 2 days later yields 1000;
the fine is monotone in elapsed time while the loan is unresolved; and
`calculate_member_fine` satisfies all of the same properties for every
existing transaction of the member table, independently of the staff
table's contents. -/
theorem claim_C1_fine_formula (st : DB) (tid : Nat) (now : Int) :
    (∀ t : Txn, findBy Txn.id st.transactions tid = some t →
      (calculate_fine st tid now).2
          = spec_overdue_days t.due_date t.return_date t.status now * 200
      ∧ findBy Txn.id (calculate_fine st tid now).1.transactions tid
          = some { t with
              fine_amount := spec_overdue_days t.due_date t.return_date t.status now * 200 }
      ∧ (t.status = .borrowed → t.return_date = none →
          (calculate_fine st tid (t.due_date + 3 * secondsPerDay)).2 = 600
          ∧ (calculate_fine st tid (t.due_date + 5 * secondsPerDay)).2 = 1000)
      ∧ (t.return_date = none → t.status = .borrowed ∨ t.status = .overdue →
          ∀ n₁ n₂ : Int, n₁ ≤ n₂ →
            (calculate_fine st tid n₁).2 ≤ (calculate_fine st tid n₂).2))
    ∧ (∀ mt : MemberTxn, findBy MemberTxn.id st.member_transactions tid = some mt →
      (calculate_member_fine st tid now).2
          = spec_overdue_days mt.due_date mt.return_date mt.status now * 200
      ∧ findBy MemberTxn.id (calculate_member_fine st tid now).1.member_transactions tid
          = some { mt with
              fine_amount := spec_overdue_days mt.due_date mt.return_date mt.status now * 200 }
      ∧ (mt.status = .borrowed → mt.return_date = none →
          (calculate_member_fine st tid (mt.due_date + 3 * secondsPerDay)).2 = 600
          ∧ (calculate_member_fine st tid (mt.due_date + 5 * secondsPerDay)).2 = 1000)
      ∧ (mt.return_date = none → mt.status = .borrowed ∨ mt.status = .overdue →
          ∀ n₁ n₂ : Int, n₁ ≤ n₂ →
            (calculate_member_fine st tid n₁).2 ≤ (calculate_member_fine st tid n₂).2)) := by
  constructor
  · intro t h
    refine ⟨?_, ?_, ?_, ?_⟩
    · rw [calculate_fine_found st tid now t h]
      rfl
    · rw [calculate_fine_found st tid now t h]
      dsimp only
      rw [findBy_updateBy_self Txn.id
        (fun tx => { tx with fine_amount := overdue_days_calc t.due_date t.return_date t.status now * 200 })
        (fun _ => rfl), h]
      rfl
    · intro hb hrd
      constructor
      · rw [calculate_fine_found st tid (t.due_date + 3 * secondsPerDay) t h]
        dsimp only
        rw [hrd, hb]
        simp only [overdue_days_calc, if_pos (Or.inl rfl)]
        have harg : t.due_date + 3 * secondsPerDay - t.due_date = 3 * secondsPerDay := by ring
        rw [harg]
        decide
      · rw [calculate_fine_found st tid (t.due_date + 5 * secondsPerDay) t h]
        dsimp only
        rw [hrd, hb]
        simp only [overdue_days_calc, if_pos (Or.inl rfl)]
        have harg : t.due_date + 5 * secondsPerDay - t.due_date = 5 * secondsPerDay := by ring
        rw [harg]
        decide
    · intro hrd hbs n₁ n₂ hle
      rw [calculate_fine_found st tid n₁ t h, calculate_fine_found st tid n₂ t h]
      dsimp only
      rw [hrd]
      exact mul_le_mul_of_nonneg_right
        (overdue_days_unresolved_mono t.due_date t.status hbs n₁ n₂ hle) (by norm_num)
  · intro mt hmt
    refine ⟨?_, ?_, ?_, ?_⟩
    · rw [calculate_member_fine_found st tid now mt hmt]
      rfl
    · rw [calculate_member_fine_found st tid now mt hmt]
      dsimp only
      rw [findBy_updateBy_self MemberTxn.id
        (fun tx => { tx with fine_amount := overdue_days_calc mt.due_date mt.return_date mt.status now * 200 })
        (fun _ => rfl), hmt]
      rfl
    · intro hb hrd
      constructor
      · rw [calculate_member_fine_found st tid (mt.due_date + 3 * secondsPerDay) mt hmt]
        dsimp only
        rw [hrd, hb]
        simp only [overdue_days_calc, if_pos (Or.inl rfl)]
        have harg : mt.due_date + 3 * secondsPerDay - mt.due_date = 3 * secondsPerDay := by ring
        rw [harg]
        decide
      · rw [calculate_member_fine_found st tid (mt.due_date + 5 * secondsPerDay) mt hmt]
        dsimp only
        rw [hrd, hb]
        simp only [overdue_days_calc, if_pos (Or.inl rfl)]
        have harg : mt.due_date + 5 * secondsPerDay - mt.due_date = 5 * secondsPerDay := by ring
        rw [harg]
        decide
    · intro hrd hbs n₁ n₂ hle
      rw [calculate_member_fine_found st tid n₁ mt hmt, calculate_member_fine_found st tid n₂ mt hmt]
      dsimp only
      rw [hrd]
      exact mul_le_mul_of_nonneg_right
        (overdue_days_unresolved_mono mt.due_date mt.status hbs n₁ n₂ hle) (by norm_num)

/-- C2: on a book with available copies, `checkout_book` (and
`member_checkout_book` under a resolved identity) inserts exactly one new
`borrowed` transaction dated now and due `p_due_days` days later, decrements
`available_copies` by exactly 1, sets the book's status to `borrowed`
exactly when the decrement reaches 0 and leaves it unchanged otherwise, and
touches no other book. -/
theorem claim_C2_checkout_effects (st : DB) (mid bid uid : Nat) (d now : Int) (b : Book)
    (hb : findBy Book.id st.books bid = some b)
    (havail : 0 < b.available_copies) :
    (∃ st' tid, checkout_book st mid bid d now = .ok (st', tid)
      ∧ st'.transactions = st.transactions
          ++ [⟨tid, mid, bid, now, now + d * secondsPerDay, none, .borrowed, 0, false⟩]
      ∧ findBy Book.id st'.books bid
          = some { b with
              available_copies := b.available_copies - 1,
              status := if b.available_copies - 1 = 0 then .borrowed else b.status }
      ∧ (∀ k, k ≠ bid → findBy Book.id st'.books k = findBy Book.id st.books k)
      ∧ st'.member_transactions = st.member_transactions)
    ∧ (∃ st' tid, member_checkout_book st (some uid) bid d now = .ok (st', tid)
      ∧ st'.member_transactions = st.member_transactions
          ++ [⟨tid, uid, bid, now, now + d * secondsPerDay, none, .borrowed, 0, false⟩]
      ∧ findBy Book.id st'.books bid
          = some { b with
              available_copies := b.available_copies - 1,
              status := if b.available_copies - 1 = 0 then .borrowed else b.status }
      ∧ (∀ k, k ≠ bid → findBy Book.id st'.books k = findBy Book.id st.books k)
      ∧ st'.transactions = st.transactions) := by
  constructor
  · refine ⟨_, st.nextTxId, checkout_book_found st mid bid d now b hb havail, rfl, ?_, ?_, rfl⟩
    · dsimp only
      rw [findBy_updateBy_self Book.id
        (fun bk => { bk with available_copies := bk.available_copies - 1, status := if bk.available_copies - 1 = 0 then BookStatus.borrowed else bk.status })
        (fun _ => rfl), hb]
      rfl
    · intro k hk
      dsimp only
      exact findBy_updateBy_ne Book.id
        (fun bk => { bk with available_copies := bk.available_copies - 1, status := if bk.available_copies - 1 = 0 then BookStatus.borrowed else bk.status })
        (fun _ => rfl) st.books bid k hk
  · refine ⟨_, st.nextMTxId, member_checkout_book_found st uid bid d now b hb havail, rfl, ?_, ?_, rfl⟩
    · dsimp only
      rw [findBy_updateBy_self Book.id
        (fun bk => { bk with available_copies := bk.available_copies - 1, status := if bk.available_copies - 1 = 0 then BookStatus.borrowed else bk.status })
        (fun _ => rfl), hb]
      rfl
    · intro k hk
      dsimp only
      exact findBy_updateBy_ne Book.id
        (fun bk => { bk with available_copies := bk.available_copies - 1, status := if bk.available_copies - 1 = 0 then BookStatus.borrowed else bk.status })
        (fun _ => rfl) st.books bid k hk

/-- C3: `checkout_book` fails with "Book not found" when the id does not
resolve and with "No available copies of this book" when
`available_copies ≤ 0`; both failures leave the state untouched; and a
checkout step never drives any `available_copies` below 0. -/
theorem claim_C3_checkout_failures (st : DB) (mid bid : Nat) (d now : Int)
    (hbooks : (st.books.map Book.id).Nodup) :
    (findBy Book.id st.books bid = none →
      checkout_book st mid bid d now = .error "Book not found"
      ∧ step st (.checkout mid bid d now) = st)
    ∧ (∀ b, findBy Book.id st.books bid = some b → b.available_copies ≤ 0 →
      checkout_book st mid bid d now = .error "No available copies of this book"
      ∧ step st (.checkout mid bid d now) = st)
    ∧ ((∀ bk ∈ st.books, 0 ≤ bk.available_copies) →
      ∀ bk ∈ (step st (.checkout mid bid d now)).books, 0 ≤ bk.available_copies) := by
  refine ⟨?_, ?_, ?_⟩
  · intro h0
    constructor
    · rw [checkout_book, h0]
    · rw [step, checkout_book, h0]
  · intro b hb hle
    constructor
    · rw [checkout_book, hb]
      dsimp only
      rw [if_pos hle]
    · rw [step, checkout_book, hb]
      dsimp only
      rw [if_pos hle]
  · intro hpos
    cases hfb : findBy Book.id st.books bid with
    | none =>
      rw [step, checkout_book, hfb]
      exact hpos
    | some bk =>
      by_cases ha : bk.available_copies ≤ 0
      · rw [step, checkout_book, hfb]
        dsimp only
        rw [if_pos ha]
        exact hpos
      · rw [step, checkout_book_found st mid bid d now bk hfb (not_le.mp ha)]
        dsimp only
        refine forall_mem_updateBy Book.id _ st.books bid ?_ (fun y hy _ => hpos y hy)
        intro y hy hk
        have hy_eq : findBy Book.id st.books bid = some y :=
          findBy_eq_some_of_mem Book.id st.books bid hbooks y hy hk
        rw [hfb] at hy_eq
        have hyb : y = bk := Option.some.inj hy_eq.symm
        subst hyb
        dsimp only
        omega

/-- C4: `return_book` on an existing, not-yet-returned transaction stamps
`return_date = now` and `status = returned` and releases exactly one copy
back to the book; a second call on the same transaction fails with
"Book already returned" and changes nothing. -/
theorem claim_C4_return_idempotency (st : DB) (tid : Nat) (now now₂ : Int) (t : Txn) (b : Book)
    (ht : findBy Txn.id st.transactions tid = some t)
    (hst : t.status ≠ .returned)
    (hb : findBy Book.id st.books t.book_id = some b) :
    ∃ st', return_book st tid now = .ok st'
      ∧ findBy Txn.id st'.transactions tid
          = some { t with
              return_date := some now,
              status := .returned,
              fine_amount := if t.return_date = none
                then max 0 (extractDay (now - t.due_date)) * 200 else t.fine_amount }
      ∧ findBy Book.id st'.books t.book_id
          = some { b with
              available_copies := b.available_copies + 1,
              status := if b.available_copies + 1 > 0 then .available else b.status }
      ∧ return_book st' tid now₂ = .error "Book already returned"
      ∧ step st' (.returnBook tid now₂) = st' := by
  refine ⟨_, return_book_found st tid now t ht hst, ?_, ?_, ?_, ?_⟩
  all_goals dsimp only
  · rw [findBy_updateBy_self Txn.id
      (fun tx => { tx with return_date := some now, status := TransactionStatus.returned, fine_amount := if t.return_date = none then max 0 (extractDay (now - t.due_date)) * 200 else tx.fine_amount })
      (fun _ => rfl), ht]
    rfl
  · rw [findBy_updateBy_self Book.id
      (fun bk => { bk with available_copies := bk.available_copies + 1, status := if bk.available_copies + 1 > 0 then BookStatus.available else bk.status })
      (fun _ => rfl), hb]
    rfl
  · have htx : findBy Txn.id (updateBy Txn.id
        (fun tx =>
          { tx with
              return_date := some now,
              status := .returned,
              fine_amount := if t.return_date = none
                then max 0 (extractDay (now - t.due_date)) * 200 else tx.fine_amount })
        st.transactions tid) tid
        = some { t with
            return_date := some now,
            status := .returned,
            fine_amount := if t.return_date = none
              then max 0 (extractDay (now - t.due_date)) * 200 else t.fine_amount } := by
      rw [findBy_updateBy_self Txn.id
        (fun tx => { tx with return_date := some now, status := TransactionStatus.returned, fine_amount := if t.return_date = none then max 0 (extractDay (now - t.due_date)) * 200 else tx.fine_amount })
        (fun _ => rfl), ht]
      rfl
    rw [return_book, htx]
    dsimp only
    rw [if_pos rfl]
  · have htx : findBy Txn.id (updateBy Txn.id
        (fun tx =>
          { tx with
              return_date := some now,
              status := .returned,
              fine_amount := if t.return_date = none
                then max 0 (extractDay (now - t.due_date)) * 200 else tx.fine_amount })
        st.transactions tid) tid
        = some { t with
            return_date := some now,
            status := .returned,
            fine_amount := if t.return_date = none
              then max 0 (extractDay (now - t.due_date)) * 200 else t.fine_amount } := by
      rw [findBy_updateBy_self Txn.id
        (fun tx => { tx with return_date := some now, status := TransactionStatus.returned, fine_amount := if t.return_date = none then max 0 (extractDay (now - t.due_date)) * 200 else tx.fine_amount })
        (fun _ => rfl), ht]
      rfl
    rw [step, return_book, htx]
    dsimp only
    rw [if_pos rfl]

/-- C5: `renew_book`, on an existing, currently borrowed/overdue
transaction, fails with the unpaid-fines message exactly when the borrowing
member has at least one transaction anywhere in the system with
`fine_amount > 0` and `fine_paid = false` (regardless of which book carries
the fine); that failure mutates nothing. -/
theorem claim_C5_renewal_fine_gate (st : DB) (tid : Nat) (d : Int) (t : Txn)
    (ht : findBy Txn.id st.transactions tid = some t)
    (hstat : t.status = .borrowed ∨ t.status = .overdue) :
    (((renew_book st tid d).2.message
          = "Member has unpaid fines. Please clear fines before renewing."
        ∧ (renew_book st tid d).2.success = false)
      ↔ ∃ tx ∈ st.transactions, tx.member_id = t.member_id
          ∧ 0 < tx.fine_amount ∧ tx.fine_paid = false)
    ∧ ((∃ tx ∈ st.transactions, tx.member_id = t.member_id
          ∧ 0 < tx.fine_amount ∧ tx.fine_paid = false) →
        (renew_book st tid d).1 = st) := by
  constructor
  · constructor
    · intro hmsg
      by_contra hno
      have hnof : ∀ tx ∈ st.transactions,
          ¬(tx.member_id = t.member_id ∧ 0 < tx.fine_amount ∧ tx.fine_paid = false) :=
        fun tx htx hcon => hno ⟨tx, htx, hcon⟩
      have hok := renew_book_ok st tid d t ht hstat hnof
      rw [hok] at hmsg
      dsimp only at hmsg
      exact absurd hmsg.1 (by decide)
    · intro hex
      rw [renew_book_unpaid st tid d t ht hstat hex]
      exact ⟨rfl, rfl⟩
  · intro hex
    rw [renew_book_unpaid st tid d t ht hstat hex]

/-- C6: a successful `renew_book` extends `due_date` by exactly
`p_extend_days` days and resets the status to `borrowed` even from
`overdue`, while every other field of the transaction — in particular
`fine_amount` and `fine_paid` — and every other row are left unchanged. -/
theorem claim_C6_renewal_effects (st : DB) (tid : Nat) (d : Int) (t : Txn)
    (ht : findBy Txn.id st.transactions tid = some t)
    (hstat : t.status = .borrowed ∨ t.status = .overdue)
    (hnof : ∀ tx ∈ st.transactions,
      ¬(tx.member_id = t.member_id ∧ 0 < tx.fine_amount ∧ tx.fine_paid = false)) :
    (renew_book st tid d).2
        = ⟨true, "Book renewed successfully", some (t.due_date + d * secondsPerDay)⟩
    ∧ findBy Txn.id (renew_book st tid d).1.transactions tid
        = some { t with due_date := t.due_date + d * secondsPerDay, status := .borrowed }
    ∧ (∀ k, k ≠ tid → findBy Txn.id (renew_book st tid d).1.transactions k
        = findBy Txn.id st.transactions k)
    ∧ (renew_book st tid d).1.books = st.books
    ∧ (renew_book st tid d).1.member_transactions = st.member_transactions := by
  have hok := renew_book_ok st tid d t ht hstat hnof
  refine ⟨by rw [hok], ?_, ?_, by rw [hok], by rw [hok]⟩
  · rw [hok]
    dsimp only
    rw [findBy_updateBy_self Txn.id
      (fun tx => { tx with due_date := tx.due_date + d * secondsPerDay, status := TransactionStatus.borrowed })
      (fun _ => rfl), ht]
    rfl
  · intro k hk
    rw [hok]
    dsimp only
    exact findBy_updateBy_ne Txn.id
      (fun tx => { tx with due_date := tx.due_date + d * secondsPerDay, status := TransactionStatus.borrowed })
      (fun _ => rfl) st.transactions tid k hk

/-- C7: `mark_fine_paid` sets `fine_paid = true` unconditionally — there is
no check on `fine_amount` — and changes no other field and no other row;
and `calculate_fine` writes only `fine_amount`, so it can never flip
`fine_paid` back to false. -/
theorem claim_C7_fine_payment_frame (st : DB) (tid : Nat) (t : Txn)
    (ht : findBy Txn.id st.transactions tid = some t) :
    findBy Txn.id (mark_fine_paid st tid).transactions tid = some { t with fine_paid := true }
    ∧ (∀ k, k ≠ tid → findBy Txn.id (mark_fine_paid st tid).transactions k
        = findBy Txn.id st.transactions k)
    ∧ (mark_fine_paid st tid).books = st.books
    ∧ (mark_fine_paid st tid).member_transactions = st.member_transactions
    ∧ (∀ tid₂ now, ((calculate_fine st tid₂ now).1.transactions).map eraseFineAmount
        = st.transactions.map eraseFineAmount) := by
  refine ⟨?_, ?_, rfl, rfl, ?_⟩
  · rw [mark_fine_paid]
    dsimp only
    rw [findBy_updateBy_self Txn.id (fun tx => { tx with fine_paid := true }) (fun _ => rfl), ht]
    rfl
  · intro k hk
    rw [mark_fine_paid]
    dsimp only
    exact findBy_updateBy_ne Txn.id (fun tx => { tx with fine_paid := true }) (fun _ => rfl)
      st.transactions tid k hk
  · intro tid₂ now
    cases hfb : findBy Txn.id st.transactions tid₂ with
    | none => rw [calculate_fine, hfb]
    | some t₂ =>
      rw [calculate_fine_found st tid₂ now t₂ hfb]
      dsimp only
      exact map_updateBy Txn.id
        (fun tx => { tx with fine_amount := overdue_days_calc t₂.due_date t₂.return_date t₂.status now * 200 })
        eraseFineAmount (fun _ => rfl) st.transactions tid₂

/-- C8: in every state reachable from the empty store by any sequence of
engine calls, a set `return_date` implies status `returned`, on both
transaction tables. -/
theorem claim_C8_return_status_invariant (ops : List Op) : RetStatusInv (run ops) :=
  (inv_foldl ops emptyDB inv_empty).2

/-- A members-table state on which the candidate id built from
`COUNT(*) + 1` already belongs to a member (e.g. after a deletion shifted
the count): `COUNT(*) + 1 = 2` and `LIB-2024-0002` is taken. -/
def collidingMembers : List MemberRow := [⟨"LIB-2024-0002"⟩]

/-- C9 counterexample: the collision-check loop of `generate_member_id`
recomputes the same candidate on every pass (nothing in the loop changes the
table), so on `collidingMembers` it never exits — the claimed termination
for every table state is false. -/
theorem claim_C9_counterexample : generate_member_id_diverges collidingMembers 2024 := by
  intro fuel
  induction fuel with
  | zero => rfl
  | succ n ih =>
    have hcol : member_id_exists collidingMembers (candidate_member_id collidingMembers 2024)
        = true := by decide
    simp only [generate_member_id, hcol]
    exact ih

/-- C9 amended: whenever the candidate id `LIB-<year>-<lpad4(count+1)>` is
not already some member's id, `generate_member_id` terminates on its first
pass and returns that candidate, which has the required format and collides
with no existing member id; and any value the loop ever returns collides
with no existing member id.  (On states where the candidate is taken — a
deletion can shift the count onto a taken id, and LPAD truncation after
9999 same-year ids recreates the round-1000 candidate — the loop never
exits; see the counterexample.) -/
theorem claim_C9_amended_generate (members : List MemberRow) (year : Nat) (fuel : Nat)
    (hfuel : 0 < fuel)
    (hfree : member_id_exists members (candidate_member_id members year) = false) :
    generate_member_id members year fuel = some (candidate_member_id members year)
    ∧ (∀ m ∈ members, m.member_id ≠ candidate_member_id members year)
    ∧ candidate_member_id members year
        = "LIB-" ++ toString year ++ "-" ++ String.mk (lpadChars (Nat.repr (members.length + 1)).data)
    ∧ (String.mk (lpadChars (Nat.repr (members.length + 1)).data)).length = 4
    ∧ (∀ f s, generate_member_id members year f = some s → member_id_exists members s = false) := by
  refine ⟨?_, ?_, rfl, ?_, ?_⟩
  · cases fuel with
    | zero => omega
    | succ n =>
      simp only [generate_member_id]
      rw [if_neg (by rw [hfree]; exact Bool.false_ne_true)]
  · intro m hm heq
    have hex : member_id_exists members (candidate_member_id members year) = true := by
      simp only [member_id_exists, List.any_eq_true]
      exact ⟨m, hm, by rw [heq]; simp⟩
    rw [hfree] at hex
    exact absurd hex (by decide)
  · have hlen : (String.mk (lpadChars (Nat.repr (members.length + 1)).data)).length
        = (lpadChars (Nat.repr (members.length + 1)).data).length := rfl
    rw [hlen, lpadChars_length]
  · intro f s
    induction f with
    | zero =>
      intro hgen
      simp [generate_member_id] at hgen
    | succ n ih =>
      intro hgen
      simp only [generate_member_id] at hgen
      by_cases hc : member_id_exists members (candidate_member_id members year) = true
      · rw [if_pos hc] at hgen
        exact ih hgen
      · have hfc : member_id_exists members (candidate_member_id members year) = false := by
          revert hc
          cases member_id_exists members (candidate_member_id members year) <;> simp
        rw [if_neg hc] at hgen
        rw [← Option.some.inj hgen]
        exact hfc

/-- C10: a successful `return_book` on a book whose status is the manual
override `damaged` or `lost` (and whose copy count is nonnegative) always
sets the book's status back to `available`, because the guard
`available_copies + 1 > 0` always holds — the engine silently erases the
manual override. -/
theorem claim_C10_return_erases_override (st : DB) (tid : Nat) (now : Int) (t : Txn) (b : Book)
    (ht : findBy Txn.id st.transactions tid = some t)
    (hst : t.status ≠ .returned)
    (hb : findBy Book.id st.books t.book_id = some b)
    (havail : 0 ≤ b.available_copies)
    (hdl : b.status = .damaged ∨ b.status = .lost) :
    ∃ st', return_book st tid now = .ok st'
      ∧ findBy Book.id st'.books t.book_id
          = some { b with available_copies := b.available_copies + 1, status := .available } := by
  refine ⟨_, return_book_found st tid now t ht hst, ?_⟩
  dsimp only
  rw [findBy_updateBy_self Book.id
    (fun bk => { bk with available_copies := bk.available_copies + 1, status := if bk.available_copies + 1 > 0 then BookStatus.available else bk.status })
    (fun _ => rfl), hb]
  rw [Option.map_some']
  rw [if_pos (by omega : b.available_copies + 1 > 0)]

end Librarian

namespace Librarian

/-! ## Concrete witness states -/

/-- A book with two of three copies on the shelf. -/
def bookW : Book := ⟨1, 3, 2, .available⟩

/-- An open loan of `bookW` by member 9, due 14 days after epoch. -/
def txnW : Txn := ⟨0, 9, 1, 0, 1209600, none, .borrowed, 0, false⟩

/-- A self-service loan mirroring `txnW`. -/
def mtxnW : MemberTxn := ⟨0, 9, 1, 0, 1209600, none, .borrowed, 0, false⟩

/-- A store with one book and one open loan on each table. -/
def stW : DB := ⟨[bookW], [txnW], [mtxnW], 1, 1⟩

/-- A store reached by self-service checkouts alone: the staff transaction
table is empty. -/
def stM : DB := ⟨[bookW], [], [mtxnW], 0, 1⟩

/-- A returned loan of member 9 carrying an unpaid ₦600 fine. -/
def txnF : Txn := ⟨1, 9, 1, 0, 1209600, some 1468800, .returned, 600, false⟩

/-- A store where member 9 has an open loan and an unpaid fine. -/
def stF : DB := ⟨[bookW], [txnW, txnF], [], 2, 0⟩

/-- `bookW` under the manual `damaged` override. -/
def bookD : Book := ⟨1, 3, 2, .damaged⟩

/-- A store with a damaged book out on loan. -/
def stD : DB := ⟨[bookD], [txnW], [], 1, 0⟩

theorem claim_C1_witness :
    findBy Txn.id stW.transactions 0 = some txnW
    ∧ (calculate_fine stW 0 (txnW.due_date + 3 * secondsPerDay)).2 = 600
    ∧ findBy MemberTxn.id stM.member_transactions 0 = some mtxnW
    ∧ (calculate_member_fine stM 0 (mtxnW.due_date + 3 * secondsPerDay)).2 = 600 := by
  refine ⟨by decide, ?_, by decide, ?_⟩
  · exact (((claim_C1_fine_formula stW 0 0).1 txnW (by decide)).2.2.1 rfl rfl).1
  · exact (((claim_C1_fine_formula stM 0 0).2 mtxnW (by decide)).2.2.1 rfl rfl).1

theorem claim_C2_witness :
    findBy Book.id stW.books 1 = some bookW
    ∧ 0 < bookW.available_copies
    ∧ ∃ st' tid, checkout_book stW 9 1 14 0 = .ok (st', tid) := by
  refine ⟨by decide, by decide, ?_⟩
  obtain ⟨⟨st', tid, h1, -⟩, -⟩ :=
    claim_C2_checkout_effects stW 9 1 9 14 0 bookW (by decide) (by decide)
  exact ⟨st', tid, h1⟩

theorem claim_C3_witness :
    (stW.books.map Book.id).Nodup
    ∧ findBy Book.id stW.books 5 = none
    ∧ checkout_book stW 9 5 14 0 = .error "Book not found" := by
  refine ⟨by decide, by decide, ?_⟩
  exact ((claim_C3_checkout_failures stW 9 5 14 0 (by decide)).1 (by decide)).1

theorem claim_C4_witness :
    findBy Txn.id stW.transactions 0 = some txnW
    ∧ txnW.status ≠ .returned
    ∧ findBy Book.id stW.books txnW.book_id = some bookW
    ∧ ∃ st', return_book stW 0 (17 * secondsPerDay) = .ok st' := by
  refine ⟨by decide, by decide, by decide, ?_⟩
  obtain ⟨st', h1, -⟩ := claim_C4_return_idempotency stW 0 (17 * secondsPerDay)
    (18 * secondsPerDay) txnW bookW (by decide) (by decide) (by decide)
  exact ⟨st', h1⟩

theorem claim_C5_witness :
    findBy Txn.id stF.transactions 0 = some txnW
    ∧ (txnW.status = .borrowed ∨ txnW.status = .overdue)
    ∧ (renew_book stF 0 14).2.success = false := by
  refine ⟨by decide, by decide, ?_⟩
  have h := claim_C5_renewal_fine_gate stF 0 14 txnW (by decide) (by decide)
  exact (h.1.mpr (by decide)).2

theorem claim_C6_witness :
    findBy Txn.id stW.transactions 0 = some txnW
    ∧ (renew_book stW 0 14).2
        = ⟨true, "Book renewed successfully", some (txnW.due_date + 14 * secondsPerDay)⟩ := by
  refine ⟨by decide, ?_⟩
  exact (claim_C6_renewal_effects stW 0 14 txnW (by decide) (by decide) (by decide)).1

theorem claim_C7_witness :
    findBy Txn.id stW.transactions 0 = some txnW
    ∧ findBy Txn.id (mark_fine_paid stW 0).transactions 0 = some { txnW with fine_paid := true } :=
  ⟨by decide, (claim_C7_fine_payment_frame stW 0 txnW (by decide)).1⟩

theorem claim_C8_witness :
    RetStatusInv (run [.checkout 9 1 14 0, .returnBook 0 1468800]) :=
  claim_C8_return_status_invariant _

theorem claim_C9_witness :
    member_id_exists [] (candidate_member_id [] 2024) = false
    ∧ generate_member_id [] 2024 1 = some (candidate_member_id [] 2024) :=
  ⟨by decide, (claim_C9_amended_generate [] 2024 1 (by decide) (by decide)).1⟩

theorem claim_C10_witness :
    findBy Book.id stD.books txnW.book_id = some bookD
    ∧ (bookD.status = .damaged ∨ bookD.status = .lost)
    ∧ ∃ st', return_book stD 0 (17 * secondsPerDay) = .ok st'
        ∧ findBy Book.id st'.books txnW.book_id
            = some { bookD with available_copies := bookD.available_copies + 1, status := .available } := by
  refine ⟨by decide, by decide, ?_⟩
  obtain ⟨st', h1, h2⟩ := claim_C10_return_erases_override stD 0 (17 * secondsPerDay) txnW bookD
    (by decide) (by decide) (by decide) (by decide) (by decide)
  exact ⟨st', h1, h2⟩

end Librarian
